import Mathlib

/-!
Verification of the MBA ingestion pipeline (services/s3_client.py,
microservices/queue.py, microservices/worker.py, services/file_utils.py,
services/duplicate_detector.py) against its natural-language specification.

The Python code is shallowly embedded: every function relevant to the
claims is translated into an executable Lean definition, with the external
world (S3 HEAD / PUT outcomes, filesystem stat results) passed in as
explicit data so that control flow, returned values, retry counts and
backoff sleeps become provable facts.
-/

/-! ## Python truthiness

`worker.py` tests the value returned by `upload_file` (a `(bool, str)`
tuple) with `if success:`, i.e. Python truthiness.  We model the small
fragment of Python values that flows through that test. -/

/-- Fragment of Python runtime values returned by the upload path:
booleans, strings, and tuples of values. -/
inductive PyVal where
  | pyBool (b : Bool)
  | pyStr (s : String)
  | pyTuple (elems : List PyVal)

/-- Python truthiness for the modelled fragment: `False` is falsy, the
empty string is falsy, and a tuple is truthy iff it is non-empty. -/
def PyVal.truthy : PyVal → Bool
  | .pyBool b => b
  | .pyStr s => decide (s ≠ "")
  | .pyTuple es => decide (es.length ≠ 0)

/-! ## S3 client model (services/s3_client.py)

The boto3 calls are modelled by their observable outcomes:
a `head_object` call either returns metadata, raises a `ClientError`
with an error code, or raises some other exception; each `upload_file`
(PUT) attempt either succeeds, raises `NoCredentialsError`, raises a
`ClientError` with a code and message, or raises another exception. -/

/-- Outcome of the `head_object` call inside `check_s3_file_exists`. -/
inductive HeadOutcome where
  | ok (size : Nat) (etag : String) (contentType : String)
  | clientErr (code : String)
  | otherErr (msg : String)

/-- Metadata snapshot assembled by `check_s3_file_exists` on HTTP 200
(`last_modified` is omitted: no claim inspects it). -/
structure S3Metadata where
  size : Nat
  etag : String
  contentType : String
deriving DecidableEq

/-- Embedding of Python's `str.strip('"')`: remove leading and trailing
double-quote characters. -/
def stripQuoteChars (s : String) : String :=
  String.mk (((s.toList.dropWhile (· = '"')).reverse.dropWhile (· = '"')).reverse)

/-- Translation of `check_s3_file_exists` (s3_client.py lines 94-164).
The codomain is `Except` so that a propagated exception is representable:
the function returns `.ok` on the 200 path, the 404 path, the other
`ClientError` path and the catch-all path, mirroring the three `except`
clauses that all `return` instead of re-raising. -/
def check_s3_file_exists : HeadOutcome → Except String (Bool × Option S3Metadata)
  | .ok size etag contentType =>
      .ok (true, some ⟨size, stripQuoteChars etag, contentType⟩)
  | .clientErr code =>
      if code = "404" then
        .ok (false, none)
      else
        .ok (false, none)
  | .otherErr _ =>
      .ok (false, none)

/-- Outcome of one `s3_client.upload_file` (PUT) attempt. -/
inductive PutOutcome where
  | ok
  | noCredentials
  | clientErr (code : String) (msg : String)
  | otherErr (msg : String)

/-- Result of a call to `upload_file`: either a normal `(bool, str)`
return or a raised `UploadError` carrying its message. -/
inductive UploadResult where
  | returned (success : Bool) (message : String)
  | raised (error : String)
deriving DecidableEq

/-- Observable trace of one `upload_file` call: its result, the number of
PUT attempts performed, and the list of backoff sleeps (in seconds, in
order) that were executed. -/
structure UploadTrace where
  result : UploadResult
  putCalls : Nat
  sleeps : List Nat
deriving DecidableEq

/-- Translation of the retry loop `for attempt in range(1, max_retries + 1)`
of `upload_file` (s3_client.py lines 357-447), parameterised by the outcome
of each attempt.  `AccessDenied` / `NoSuchBucket` client errors and
credential errors raise immediately; other client errors sleep
`2 ** attempt` seconds and retry while `attempt < max_retries`, then raise;
the final line `return False, "Upload failed after all retries"` is the
loop's fall-through safety net. -/
def uploadAttempts (put : Nat → PutOutcome) (maxRetries attempt : Nat) : UploadTrace :=
  if maxRetries < attempt then
    ⟨.returned false "Upload failed after all retries", 0, []⟩
  else
    match put attempt with
    | .ok => ⟨.returned true "Uploaded successfully", 1, []⟩
    | .noCredentials => ⟨.raised "AWS credentials not found", 1, []⟩
    | .clientErr code msg =>
        if code = "AccessDenied" ∨ code = "NoSuchBucket" then
          ⟨.raised (code ++ ": " ++ msg), 1, []⟩
        else if attempt < maxRetries then
          let rest := uploadAttempts put maxRetries (attempt + 1)
          ⟨rest.result, rest.putCalls + 1, 2 ^ attempt :: rest.sleeps⟩
        else
          ⟨.raised ("Upload failed: " ++ msg), 1, []⟩
    | .otherErr msg => ⟨.raised ("Unexpected error: " ++ msg), 1, []⟩
termination_by maxRetries + 1 - attempt
decreasing_by omega

/-- Environment of one `upload_file` call: what `head_object` would
report at the target key, the local file's byte size, and the outcome of
each PUT attempt (indexed from 1). -/
structure UploadEnv where
  head : HeadOutcome
  localSize : Nat
  put : Nat → PutOutcome

/-- Translation of `upload_file` (s3_client.py lines 278-447).  With
`check_duplicate` and not `overwrite`, a HEAD is issued: equal sizes
return `(True, "Skipped (duplicate)")` with no PUT; unequal sizes return
`(False, "Exists with different size (use overwrite to replace)")` with
no PUT.  Otherwise the retry loop runs starting at attempt 1. -/
def upload_file (env : UploadEnv) (maxRetries : Nat)
    (checkDuplicate overwrite : Bool) : UploadTrace :=
  if checkDuplicate && !overwrite then
    match check_s3_file_exists env.head with
    | .error e => ⟨.raised e, 0, []⟩
    | .ok (found, s3Metadata) =>
        if found then
          let s3Size := (s3Metadata.map S3Metadata.size).getD 0
          if env.localSize = s3Size then
            ⟨.returned true "Skipped (duplicate)", 0, []⟩
          else if !overwrite then
            ⟨.returned false "Exists with different size (use overwrite to replace)", 0, []⟩
          else
            uploadAttempts env.put maxRetries 1
        else
          uploadAttempts env.put maxRetries 1
  else
    uploadAttempts env.put maxRetries 1

/-- C1: with `check_duplicate=True`, `overwrite=False` and a remote object
whose size equals the local size, `upload_file` returns
`(True, "Skipped (duplicate)")` and performs zero PUT calls (and no
sleeps); in particular a second upload of an unchanged file with
duplicate-skipping enabled reports exactly this. -/
theorem C1_upload_skips_equal_size_duplicate
    (env : UploadEnv) (maxRetries : Nat) (etag contentType : String)
    (hhead : env.head = HeadOutcome.ok env.localSize etag contentType) :
    upload_file env maxRetries true false =
      ⟨.returned true "Skipped (duplicate)", 0, []⟩ := by
  simp [upload_file, check_s3_file_exists, hhead]

/-- C1 witness: a concrete environment with a 500-byte local file and a
500-byte remote object. -/
theorem C1_upload_skips_equal_size_duplicate_witness :
    upload_file ⟨HeadOutcome.ok 500 "abc" "text/csv", 500, fun _ => PutOutcome.ok⟩ 3 true false =
      ⟨.returned true "Skipped (duplicate)", 0, []⟩ :=
  C1_upload_skips_equal_size_duplicate
    ⟨HeadOutcome.ok 500 "abc" "text/csv", 500, fun _ => PutOutcome.ok⟩ 3 "abc" "text/csv" rfl

/-- C5: with `check_duplicate=True`, `overwrite=False` and a remote object
whose size differs from the local size, `upload_file` returns the refusal
`(False, "Exists with different size (use overwrite to replace)")` with
zero PUT calls and zero sleeps — a normal return, not a raised error. -/
theorem C5_upload_refuses_size_mismatch
    (env : UploadEnv) (maxRetries : Nat) (s3Size : Nat) (etag contentType : String)
    (hhead : env.head = HeadOutcome.ok s3Size etag contentType)
    (hne : env.localSize ≠ s3Size) :
    upload_file env maxRetries true false =
      ⟨.returned false "Exists with different size (use overwrite to replace)", 0, []⟩ := by
  simp [upload_file, check_s3_file_exists, hhead, hne]

/-- C5 witness: local 500 bytes, remote 300 bytes, `overwrite=False`. -/
theorem C5_upload_refuses_size_mismatch_witness :
    upload_file ⟨HeadOutcome.ok 300 "abc" "text/csv", 500, fun _ => PutOutcome.ok⟩ 3 true false =
      ⟨.returned false "Exists with different size (use overwrite to replace)", 0, []⟩ :=
  C5_upload_refuses_size_mismatch
    ⟨HeadOutcome.ok 300 "abc" "text/csv", 500, fun _ => PutOutcome.ok⟩ 3 300 "abc" "text/csv"
    rfl (by decide)

/-- C6: `check_s3_file_exists` never raises — every outcome of the HEAD
call yields a normal return; a 404 (and any other client error) and any
unexpected exception all yield `(False, None)`, while HTTP 200 yields
`(True, metadata)`. -/
theorem C6_head_check_never_raises (h : HeadOutcome) :
    (∃ r, check_s3_file_exists h = .ok r) ∧
    (∀ size etag contentType, h = HeadOutcome.ok size etag contentType →
      check_s3_file_exists h = .ok (true, some ⟨size, stripQuoteChars etag, contentType⟩)) ∧
    (∀ code, h = HeadOutcome.clientErr code →
      check_s3_file_exists h = .ok (false, none)) ∧
    (∀ msg, h = HeadOutcome.otherErr msg →
      check_s3_file_exists h = .ok (false, none)) := by
  refine ⟨?_, ?_, ?_, ?_⟩
  · cases h with
    | ok size etag contentType => exact ⟨_, rfl⟩
    | clientErr code => by_cases hc : code = "404" <;> simp [check_s3_file_exists, hc]
    | otherErr msg => exact ⟨_, rfl⟩
  · rintro size etag contentType rfl
    rfl
  · rintro code rfl
    by_cases hc : code = "404" <;> simp [check_s3_file_exists, hc]
  · rintro msg rfl
    rfl

/-- C6 witness: an `AccessDenied` client error on HEAD yields the normal
negative result `(False, None)`. -/
theorem C6_head_check_never_raises_witness :
    check_s3_file_exists (HeadOutcome.clientErr "AccessDenied") = .ok (false, none) :=
  (C6_head_check_never_raises (HeadOutcome.clientErr "AccessDenied")).2.2.1 "AccessDenied" rfl

/-! ## Job queue model (microservices/queue.py)

`JobQueue` wraps a thread-safe FIFO plus two counters.  The state is
modelled by the queue length, the two counters, and a ghost counter
`totalPut` recording how many jobs were ever enqueued (the quantity the
spec's invariant refers to). -/

/-- State of a `JobQueue`: current queue length (`qsize`), the
`_processed_count` and `_failed_count` counters, and the ghost count of
jobs ever `put`. -/
structure QueueState where
  queued : Nat
  processedCount : Nat
  failedCount : Nat
  totalPut : Nat
deriving DecidableEq

/-- Translation of `JobQueue.put`: enqueue one job. -/
def JobQueue.put (s : QueueState) : QueueState :=
  { s with queued := s.queued + 1, totalPut := s.totalPut + 1 }

/-- Translation of `JobQueue.get`: dequeue a job if one is available
(first component `true`), otherwise time out returning `None` (first
component `false`, state unchanged). -/
def JobQueue.get (s : QueueState) : Bool × QueueState :=
  if s.queued = 0 then (false, s) else (true, { s with queued := s.queued - 1 })

/-- Translation of `JobQueue.task_done`: increment `_processed_count`. -/
def JobQueue.task_done (s : QueueState) : QueueState :=
  { s with processedCount := s.processedCount + 1 }

/-- Translation of `JobQueue.mark_failed`: increment `_failed_count`. -/
def JobQueue.mark_failed (s : QueueState) : QueueState :=
  { s with failedCount := s.failedCount + 1 }

/-- Snapshot returned by `JobQueue.stats`. -/
structure QueueStats where
  queued : Nat
  processed : Nat
  failed : Nat
  total : Nat
deriving DecidableEq

/-- Translation of `JobQueue.stats` (queue.py lines 130-150): `total` is
computed as `processed + failed + qsize`. -/
def JobQueue.stats (s : QueueState) : QueueStats :=
  ⟨s.queued, s.processedCount, s.failedCount,
    s.processedCount + s.failedCount + s.queued⟩

/-- Client operations on the queue under the discipline of C4: a `put`,
or a dequeue followed by exactly one of `task_done` (success) /
`mark_failed` (failure).  A dequeue from an empty queue returns `None`
and, per the discipline, no completion call is made for it. -/
inductive QOp where
  | put
  | processJob (success : Bool)

/-- Apply one disciplined operation to the queue state. -/
def applyOp (s : QueueState) (op : QOp) : QueueState :=
  match op with
  | .put => JobQueue.put s
  | .processJob ok =>
      let r := JobQueue.get s
      if r.1 then
        if ok then JobQueue.task_done r.2 else JobQueue.mark_failed r.2
      else
        r.2

/-- Initial state of a freshly constructed `JobQueue`. -/
def initState : QueueState := ⟨0, 0, 0, 0⟩

/-- Run a sequence of disciplined queue operations from a given state. -/
def runOps (s : QueueState) (ops : List QOp) : QueueState :=
  ops.foldl applyOp s

/-- Counter invariant claimed by the spec:
`processed + failed + queued = jobs ever put`. -/
def queueInvariant (s : QueueState) : Prop :=
  s.processedCount + s.failedCount + s.queued = s.totalPut

theorem applyOp_invariant (s : QueueState) (op : QOp)
    (h : queueInvariant s) : queueInvariant (applyOp s op) := by
  have h' : s.processedCount + s.failedCount + s.queued = s.totalPut := h
  cases op with
  | put =>
      simp only [applyOp, JobQueue.put, queueInvariant]
      omega
  | processJob ok =>
      by_cases hq : s.queued = 0
      · simp only [applyOp, JobQueue.get, hq, if_true, queueInvariant]
        simpa using h'
      · cases ok <;>
          simp [applyOp, JobQueue.get, hq, JobQueue.task_done, JobQueue.mark_failed,
            queueInvariant] <;>
          omega

theorem runOps_invariant (ops : List QOp) : ∀ s : QueueState,
    queueInvariant s → queueInvariant (runOps s ops) := by
  induction ops with
  | nil => intro s h; simpa [runOps] using h
  | cons op rest ih =>
      intro s h
      have : runOps s (op :: rest) = runOps (applyOp s op) rest := by
        simp [runOps]
      rw [this]
      exact ih _ (applyOp_invariant s op h)

/-- C4: for every sequence of `put`, `get`, and exactly one of
`task_done` / `mark_failed` per dequeued job, the counters satisfy
`processed + failed + queued = total jobs ever put` after every prefix,
and `stats` reports a snapshot with `total = processed + failed + queued`. -/
theorem C4_queue_counter_invariant (ops : List QOp) :
    queueInvariant (runOps initState ops) ∧
    (JobQueue.stats (runOps initState ops)).total =
      (JobQueue.stats (runOps initState ops)).processed +
        (JobQueue.stats (runOps initState ops)).failed +
          (JobQueue.stats (runOps initState ops)).queued := by
  refine ⟨runOps_invariant ops initState (by simp [queueInvariant, initState]), ?_⟩
  simp [JobQueue.stats]

/-! ## Worker model (microservices/worker.py)

`Worker.process_job` calls `upload_file` and stores its result in
`success`; on a normal return that value is the `(bool, str)` tuple, and
on an exception the worker returns the Python literal `False`.  The
branch `if success:` therefore tests Python truthiness of a 2-tuple. -/

/-- Outcome of the `upload_file` call made for one job: a normal
`(success, message)` return, a raised `UploadError`, or another
exception. -/
inductive JobOutcome where
  | returns (success : Bool) (message : String)
  | raisesUpload (msg : String)
  | raisesOther (msg : String)

/-- Per-worker counters `self.processed` / `self.failed`. -/
structure WorkerState where
  processed : Nat
  failed : Nat
deriving DecidableEq

/-- Translation of `Worker.process_job` (worker.py lines 39-76): the
returned Python value and the updated worker counters.  On a normal
return, `success` is the tuple returned by `upload_file` and is tested
with `if success:`; on an exception, `failed` is incremented and the
literal `False` is returned. -/
def Worker.process_job (w : WorkerState) (o : JobOutcome) : PyVal × WorkerState :=
  match o with
  | .returns b m =>
      let success : PyVal := .pyTuple [.pyBool b, .pyStr m]
      if success.truthy then
        (success, { w with processed := w.processed + 1 })
      else
        (success, { w with failed := w.failed + 1 })
  | .raisesUpload _ => (.pyBool false, { w with failed := w.failed + 1 })
  | .raisesOther _ => (.pyBool false, { w with failed := w.failed + 1 })

/-- Translation of the body of `Worker.run` after a job was dequeued
(worker.py lines 98-106): process the job, call `task_done`
unconditionally, and call `mark_failed` iff the processing result is
falsy. -/
def Worker.runStep (q : QueueState) (w : WorkerState) (o : JobOutcome) :
    QueueState × WorkerState :=
  let pr := Worker.process_job w o
  let q1 := JobQueue.task_done q
  if pr.1.truthy then (q1, pr.2) else (JobQueue.mark_failed q1, pr.2)

/-- Translation of the `Worker.run` loop draining a queue: `outcomes`
lists, in order, the `upload_file` outcome of each job the worker
dequeues. -/
def Worker.drain (q : QueueState) (w : WorkerState) :
    List JobOutcome → QueueState × WorkerState
  | [] => (q, w)
  | o :: rest =>
      let got := JobQueue.get q
      let step := Worker.runStep got.2 w o
      Worker.drain step.1 step.2 rest

/-- A job's processing fails (its result is falsy) iff its `upload_file`
call raised. -/
def jobFails : JobOutcome → Bool
  | .returns _ _ => false
  | .raisesUpload _ => true
  | .raisesOther _ => true

/-- Number of dequeued jobs whose processing failed. -/
def countFailed (outcomes : List JobOutcome) : Nat :=
  outcomes.countP jobFails

theorem process_job_fst_truthy (w : WorkerState) (o : JobOutcome) :
    ((Worker.process_job w o).1).truthy = !jobFails o := by
  cases o <;> rfl

theorem runStep_queue (q : QueueState) (w : WorkerState) (o : JobOutcome) :
    (Worker.runStep q w o).1 =
      if jobFails o then JobQueue.mark_failed (JobQueue.task_done q)
      else JobQueue.task_done q := by
  have ht := process_job_fst_truthy w o
  cases o <;>
    simp [Worker.runStep, Worker.process_job, PyVal.truthy, jobFails]

theorem drain_queue (outcomes : List JobOutcome) : ∀ (q : QueueState) (w : WorkerState),
    (Worker.drain q w outcomes).1 =
      ⟨q.queued - outcomes.length, q.processedCount + outcomes.length,
        q.failedCount + countFailed outcomes, q.totalPut⟩ := by
  induction outcomes with
  | nil => intro q w; simp [Worker.drain, countFailed]
  | cons o rest ih =>
      intro q w
      show (Worker.drain (Worker.runStep (JobQueue.get q).2 w o).1
        (Worker.runStep (JobQueue.get q).2 w o).2 rest).1 = _
      rw [ih, runStep_queue]
      by_cases hq : q.queued = 0 <;> cases hf : jobFails o <;>
        simp [JobQueue.get, hq, JobQueue.task_done, JobQueue.mark_failed,
          countFailed, List.countP_cons, hf] <;>
        omega

theorem runOps_replicate_put (n : Nat) : ∀ s : QueueState,
    runOps s (List.replicate n QOp.put) =
      ⟨s.queued + n, s.processedCount, s.failedCount, s.totalPut + n⟩ := by
  induction n with
  | zero => intro s; simp [runOps]
  | succ n ih =>
      intro s
      rw [List.replicate_succ]
      have : runOps s (QOp.put :: List.replicate n QOp.put) =
          runOps (applyOp s QOp.put) (List.replicate n QOp.put) := by
        simp [runOps]
      rw [this, ih]
      have hstep : applyOp s QOp.put =
          ⟨s.queued + 1, s.processedCount, s.failedCount, s.totalPut + 1⟩ := rfl
      rw [hstep]
      dsimp only
      simp only [QueueState.mk.injEq, and_true, true_and]
      omega

/-- C9: `task_done` is called for every dequeued job and `mark_failed`
additionally for every failed one, so after a worker drains a queue into
which `n` jobs were put and `f` of them failed, the queue reports
`processed = n`, `failed = f`, and `stats().total = n + f`, which exceeds
the number of jobs ever enqueued whenever `f > 0`. -/
theorem C9_worker_drain_double_counts_failures (outcomes : List JobOutcome) :
    (Worker.drain (runOps initState (List.replicate outcomes.length QOp.put))
        ⟨0, 0⟩ outcomes).1.processedCount = outcomes.length ∧
    (Worker.drain (runOps initState (List.replicate outcomes.length QOp.put))
        ⟨0, 0⟩ outcomes).1.failedCount = countFailed outcomes ∧
    (Worker.drain (runOps initState (List.replicate outcomes.length QOp.put))
        ⟨0, 0⟩ outcomes).1.totalPut = outcomes.length ∧
    (JobQueue.stats (Worker.drain (runOps initState (List.replicate outcomes.length QOp.put))
        ⟨0, 0⟩ outcomes).1).total = outcomes.length + countFailed outcomes ∧
    (0 < countFailed outcomes →
      (Worker.drain (runOps initState (List.replicate outcomes.length QOp.put))
        ⟨0, 0⟩ outcomes).1.totalPut <
      (JobQueue.stats (Worker.drain (runOps initState (List.replicate outcomes.length QOp.put))
        ⟨0, 0⟩ outcomes).1).total) := by
  rw [runOps_replicate_put, drain_queue]
  simp [initState, JobQueue.stats]

/-- C9 witness: two jobs, one succeeding and one raising `UploadError`;
the queue afterwards reports `total = 3`, exceeding the two jobs ever
enqueued. -/
theorem C9_worker_drain_double_counts_failures_witness :
    (Worker.drain (runOps initState (List.replicate
        ([JobOutcome.returns true "Uploaded successfully", JobOutcome.raisesUpload "boom"]).length
        QOp.put)) ⟨0, 0⟩
        [JobOutcome.returns true "Uploaded successfully", JobOutcome.raisesUpload "boom"]).1.totalPut <
    (JobQueue.stats (Worker.drain (runOps initState (List.replicate
        ([JobOutcome.returns true "Uploaded successfully", JobOutcome.raisesUpload "boom"]).length
        QOp.put)) ⟨0, 0⟩
        [JobOutcome.returns true "Uploaded successfully", JobOutcome.raisesUpload "boom"]).1).total :=
  (C9_worker_drain_double_counts_failures
      [JobOutcome.returns true "Uploaded successfully", JobOutcome.raisesUpload "boom"]).2.2.2.2
    (by decide)

/-- C10: whenever `upload_file` returns (any `(bool, str)` pair),
`Worker.process_job` increments the worker's `processed` counter and
returns that tuple, which is truthy as a non-empty tuple — so even the
refusal `(False, "Exists with different size (use overwrite to replace)")`
is reported by the worker as a successful job. -/
theorem C10_process_job_counts_any_returned_tuple_as_success
    (w : WorkerState) (b : Bool) (m : String) :
    Worker.process_job w (JobOutcome.returns b m) =
      (PyVal.pyTuple [PyVal.pyBool b, PyVal.pyStr m],
        { w with processed := w.processed + 1 }) ∧
    (PyVal.pyTuple [PyVal.pyBool b, PyVal.pyStr m]).truthy = true := by
  exact ⟨rfl, rfl⟩

/-! ## Retry behaviour of `upload_file` (C2, C3) -/

theorem upload_file_object_absent (env : UploadEnv) (maxRetries : Nat)
    (checkDuplicate overwrite : Bool)
    (hhead : env.head = HeadOutcome.clientErr "404") :
    upload_file env maxRetries checkDuplicate overwrite =
      uploadAttempts env.put maxRetries 1 := by
  cases checkDuplicate <;> cases overwrite <;>
    simp [upload_file, hhead, check_s3_file_exists]

theorem uploadAttempts_transient_spec (put : Nat → PutOutcome) (code msg : String)
    (hc1 : code ≠ "AccessDenied") (hc2 : code ≠ "NoSuchBucket")
    (hall : ∀ i, put i = PutOutcome.clientErr code msg) :
    ∀ (fuel attempt maxRetries : Nat), attempt ≤ maxRetries → maxRetries - attempt = fuel →
      uploadAttempts put maxRetries attempt =
        ⟨.raised ("Upload failed: " ++ msg), maxRetries + 1 - attempt,
          (List.range' attempt (maxRetries - attempt)).map (fun a => 2 ^ a)⟩ := by
  intro fuel
  induction fuel with
  | zero =>
      intro attempt maxRetries hle hfuel
      have heq : maxRetries = attempt := by omega
      rw [heq, uploadAttempts, hall attempt]
      have h1 : ¬ attempt < attempt := by omega
      simp [h1, hc1, hc2, Nat.sub_self]
  | succ fuel ih =>
      intro attempt maxRetries hle hfuel
      have hlt : attempt < maxRetries := by omega
      rw [uploadAttempts, hall attempt]
      have hng : ¬ maxRetries < attempt := by omega
      simp only [hng, if_false, ite_false, hc1, hc2, hlt, if_true, ite_true]
      rw [ih (attempt + 1) maxRetries (by omega) (by omega)]
      have hr : maxRetries - attempt = (maxRetries - (attempt + 1)) + 1 := by omega
      rw [hr, List.range'_succ]
      simp only [List.map_cons]
      rw [if_neg (by simp)]
      simp only [UploadTrace.mk.injEq, eq_self_iff_true, and_true, true_and]
      omega

/-- C2: if every PUT attempt fails with the same transient (retriable)
client error, `upload_file` performs exactly `max_retries` PUT calls,
sleeping `2 ^ attempt` seconds after each attempt except the last
(`[2, 4, ...]`, a strictly increasing list of `max_retries - 1` delays),
and finally raises `UploadError` — never reporting success. -/
theorem C2_upload_transient_error_retried_max_retries_times
    (env : UploadEnv) (maxRetries : Nat) (code msg : String)
    (checkDuplicate overwrite : Bool)
    (hmr : 1 ≤ maxRetries)
    (hhead : env.head = HeadOutcome.clientErr "404")
    (hall : ∀ i, env.put i = PutOutcome.clientErr code msg)
    (hc1 : code ≠ "AccessDenied") (hc2 : code ≠ "NoSuchBucket") :
    upload_file env maxRetries checkDuplicate overwrite =
      ⟨.raised ("Upload failed: " ++ msg), maxRetries,
        (List.range' 1 (maxRetries - 1)).map (fun a => 2 ^ a)⟩ ∧
    List.Pairwise (· < ·) ((List.range' 1 (maxRetries - 1)).map (fun a => 2 ^ a)) := by
  constructor
  · rw [upload_file_object_absent env maxRetries checkDuplicate overwrite hhead]
    rw [uploadAttempts_transient_spec env.put code msg hc1 hc2 hall
      (maxRetries - 1) 1 maxRetries (by omega) (by omega)]
    simp only [UploadTrace.mk.injEq, eq_self_iff_true, and_true, true_and]
    omega
  · exact List.Pairwise.map (fun a => 2 ^ a)
      (fun a b h => Nat.pow_lt_pow_right (by omega) h)
      (List.pairwise_lt_range' 1 (maxRetries - 1))

/-- C2 witness: `max_retries = 3` and a put that always fails with a
throttling error — three PUT calls, sleeps `[2, 4]`, final `UploadError`. -/
theorem C2_upload_transient_error_retried_max_retries_times_witness :
    upload_file
        ⟨HeadOutcome.clientErr "404", 100, fun _ => PutOutcome.clientErr "Throttling" "slow down"⟩
        3 true false =
      ⟨.raised ("Upload failed: " ++ "slow down"), 3,
        (List.range' 1 (3 - 1)).map (fun a => 2 ^ a)⟩ ∧
    List.Pairwise (· < ·) ((List.range' 1 (3 - 1)).map (fun a => 2 ^ a)) :=
  C2_upload_transient_error_retried_max_retries_times
    ⟨HeadOutcome.clientErr "404", 100, fun _ => PutOutcome.clientErr "Throttling" "slow down"⟩
    3 "Throttling" "slow down" true false (by decide) rfl (fun _ => rfl)
    (by decide) (by decide)

/-- C3: a missing-credentials error, or an `AccessDenied` / `NoSuchBucket`
client error on the first PUT attempt makes `upload_file` raise
`UploadError` after exactly one PUT call and with no backoff sleep. -/
theorem C3_upload_nonretriable_errors_fail_immediately
    (env : UploadEnv) (maxRetries : Nat) (checkDuplicate overwrite : Bool) (msg : String)
    (hhead : env.head = HeadOutcome.clientErr "404")
    (hmr : 1 ≤ maxRetries) :
    (env.put 1 = PutOutcome.noCredentials →
      upload_file env maxRetries checkDuplicate overwrite =
        ⟨.raised "AWS credentials not found", 1, []⟩) ∧
    (env.put 1 = PutOutcome.clientErr "AccessDenied" msg →
      upload_file env maxRetries checkDuplicate overwrite =
        ⟨.raised ("AccessDenied" ++ ": " ++ msg), 1, []⟩) ∧
    (env.put 1 = PutOutcome.clientErr "NoSuchBucket" msg →
      upload_file env maxRetries checkDuplicate overwrite =
        ⟨.raised ("NoSuchBucket" ++ ": " ++ msg), 1, []⟩) := by
  have hg : ¬ maxRetries < 1 := by omega
  refine ⟨fun h1 => ?_, fun h1 => ?_, fun h1 => ?_⟩ <;>
    rw [upload_file_object_absent env maxRetries checkDuplicate overwrite hhead,
      uploadAttempts, h1] <;>
    simp [hg]

/-- C3 witness: an `AccessDenied` client error on the first attempt with
`max_retries = 3` — one PUT call, no sleeps, immediate `UploadError`. -/
theorem C3_upload_nonretriable_errors_fail_immediately_witness :
    upload_file
        ⟨HeadOutcome.clientErr "404", 100, fun _ => PutOutcome.clientErr "AccessDenied" "denied"⟩
        3 true false =
      ⟨.raised ("AccessDenied" ++ ": " ++ "denied"), 1, []⟩ :=
  (C3_upload_nonretriable_errors_fail_immediately
      ⟨HeadOutcome.clientErr "404", 100, fun _ => PutOutcome.clientErr "AccessDenied" "denied"⟩
      3 true false "denied" rfl (by decide)).2.1 rfl

/-! ## File discovery model (services/file_utils.py)

`discover_files` validates the root, optionally narrows to a scope
subdirectory, then walks the tree keeping files whose (lowercased)
`Path.suffix` passes the include/exclude filters.  Filenames carry all
the information the filters use, so files are modelled by name and the
tree by a nested inductive. -/

/-- Embedding of CPython's `PurePath.suffix`: the substring from the last
dot of the final component, provided that dot is neither the first nor
the last character; otherwise the empty string. -/
def pySuffix (name : String) : String :=
  let cs := name.toList
  let dotIdxs := (cs.enum.filter (fun p => p.2 = '.')).map Prod.fst
  match dotIdxs.getLast? with
  | none => ""
  | some i => if 0 < i ∧ i < cs.length - 1 then String.mk (cs.drop i) else ""

/-- Embedding of Python's `str.lstrip('.')`. -/
def pyLstripDot (s : String) : String :=
  String.mk (s.toList.dropWhile (· = '.'))

/-- Embedding of Python's `str.lower()` (ASCII case folding, which covers
the extension strings this code compares). -/
def pyLower (s : String) : String :=
  String.mk (s.toList.map Char.toLower)

/-- Normalisation applied to each filter entry:
`f".{ext.lstrip('.')}"`. -/
def normalizeExt (ext : String) : String :=
  "." ++ pyLstripDot ext

/-- The normalised include/exclude set built inside the loop;
`none` (Python `None`) contributes no members. -/
def normalizedSet : Option (List String) → List String
  | none => []
  | some l => l.map normalizeExt

/-- Python truthiness of the optional extension set: `None` and the empty
set are falsy, so in both cases the corresponding filter is skipped. -/
def pyTruthySet : Option (List String) → Bool
  | none => false
  | some l => !l.isEmpty

/-- Filter applied to each regular file by the `discover_files` loop
(file_utils.py lines 108-133): skip extension-less files, then apply the
include filter (when truthy), then the exclude filter (when truthy). -/
def keepFile (includeExts excludeExts : Option (List String)) (name : String) : Bool :=
  let extension := pyLower (pySuffix name)
  if extension = "" then false
  else if pyTruthySet includeExts ∧ extension ∉ normalizedSet includeExts then false
  else if pyTruthySet excludeExts ∧ extension ∈ normalizedSet excludeExts then false
  else true

/-- A node of the scanned directory tree: a regular file (identified by
its final name, which determines its suffix) or a directory with
children. -/
inductive FSNode where
  | file (name : String)
  | dir (name : String) (children : List FSNode)

/-- All regular files in a forest, as produced by `rglob("*")` followed
by the `is_file()` test that skips directories. -/
def collectFiles : List FSNode → List String
  | [] => []
  | FSNode.file name :: rest => name :: collectFiles rest
  | FSNode.dir _ children :: rest => collectFiles children ++ collectFiles rest

/-- The `input_dir` argument of `discover_files`: missing, present but
not a directory, or a directory with the given children. -/
inductive RootInput where
  | missing
  | notDir
  | rootDir (children : List FSNode)

/-- Scope handling of `discover_files` (file_utils.py lines 93-102): when
a scope is given and a child directory of that name exists, scan it;
otherwise scan the whole root. -/
def scanChildren (children : List FSNode) (scope : Option String) : List FSNode :=
  match scope with
  | none => children
  | some s =>
      match children.find? (fun node =>
        match node with
        | FSNode.dir n _ => n = s
        | FSNode.file _ => false) with
      | some (FSNode.dir _ sub) => sub
      | _ => children

/-- Translation of `discover_files` (file_utils.py lines 55-141):
fail fast on a missing or non-directory root, otherwise walk the scanned
tree and keep exactly the regular files accepted by `keepFile`. -/
def discover_files (input : RootInput)
    (includeExts excludeExts : Option (List String))
    (scope : Option String) : Except String (List String) :=
  match input with
  | .missing => .error "Input directory does not exist"
  | .notDir => .error "Input path is not a directory"
  | .rootDir children =>
      .ok ((collectFiles (scanChildren children scope)).filter
        (keepFile includeExts excludeExts))

theorem keepFile_iff (inc exc : Option (List String)) (name : String)
    (hinc : inc = none ∨ ∃ l, inc = some l ∧ l ≠ [])
    (hexc : exc = none ∨ ∃ l, exc = some l ∧ l ≠ []) :
    keepFile inc exc name = true ↔
      pyLower (pySuffix name) ≠ "" ∧
      (inc = none ∨ pyLower (pySuffix name) ∈ normalizedSet inc) ∧
      (exc = none ∨ pyLower (pySuffix name) ∉ normalizedSet exc) := by
  unfold keepFile
  dsimp only
  rcases hinc with rfl | ⟨li, rfl, hli⟩ <;> rcases hexc with rfl | ⟨le, rfl, hle⟩ <;>
    split_ifs with h1 h2 h3 <;>
    simp_all [pyTruthySet, normalizedSet]

/-- C7: `discover_files` fails fast on a missing or non-directory root;
otherwise it returns exactly the regular files of the scanned tree whose
lowercased suffix is non-empty, is in the normalised include list when
one is given, and is not in the normalised exclude list when one is
given — directories and extension-less files are never returned. -/
theorem C7_discover_files_fail_fast_and_filter :
    (∀ (inc exc : Option (List String)) (sc : Option String),
      discover_files RootInput.missing inc exc sc =
        .error "Input directory does not exist") ∧
    (∀ (inc exc : Option (List String)) (sc : Option String),
      discover_files RootInput.notDir inc exc sc =
        .error "Input path is not a directory") ∧
    (∀ (children : List FSNode) (inc exc : Option (List String)) (sc : Option String),
      (inc = none ∨ ∃ l, inc = some l ∧ l ≠ []) →
      (exc = none ∨ ∃ l, exc = some l ∧ l ≠ []) →
      ∃ files, discover_files (RootInput.rootDir children) inc exc sc = .ok files ∧
        ∀ name, name ∈ files ↔
          name ∈ collectFiles (scanChildren children sc) ∧
          pyLower (pySuffix name) ≠ "" ∧
          (inc = none ∨ pyLower (pySuffix name) ∈ normalizedSet inc) ∧
          (exc = none ∨ pyLower (pySuffix name) ∉ normalizedSet exc)) := by
  refine ⟨fun _ _ _ => rfl, fun _ _ _ => rfl, ?_⟩
  intro children inc exc sc hinc hexc
  refine ⟨_, rfl, fun name => ?_⟩
  rw [List.mem_filter, keepFile_iff inc exc name hinc hexc]

/-- C7 witness: a concrete tree with one matching file, one file filtered
out by the include list, and one extension-less file. -/
theorem C7_discover_files_fail_fast_and_filter_witness :
    ∃ files,
      discover_files
          (RootInput.rootDir
            [FSNode.file "a.txt", FSNode.dir "d" [FSNode.file "b.csv", FSNode.file "noext"]])
          (some [".txt"]) none none = .ok files ∧
      ∀ name, name ∈ files ↔
        name ∈ collectFiles (scanChildren
          [FSNode.file "a.txt", FSNode.dir "d" [FSNode.file "b.csv", FSNode.file "noext"]] none) ∧
        pyLower (pySuffix name) ≠ "" ∧
        ((some [".txt"] : Option (List String)) = none ∨
          pyLower (pySuffix name) ∈ normalizedSet (some [".txt"])) ∧
        ((none : Option (List String)) = none ∨
          pyLower (pySuffix name) ∉ normalizedSet none) :=
  C7_discover_files_fail_fast_and_filter.2.2
    [FSNode.file "a.txt", FSNode.dir "d" [FSNode.file "b.csv", FSNode.file "noext"]]
    (some [".txt"]) none none
    (Or.inr ⟨[".txt"], rfl, by decide⟩) (Or.inl rfl)

/-! ## Duplicate detector cache (services/duplicate_detector.py)

`DuplicateDetector.scan_local_directory` walks the files of a directory,
reusing a cached digest only when the cached size and mtime both equal
the file's current stat, recomputing and overwriting the entry otherwise,
and groups paths by the digest used.  A file is modelled by its resolved
path, current stat values and the digest `calculate_file_hash` would
compute on its current content (the empty string when reading fails). -/

/-- Current filesystem view of one scanned file. -/
structure FileStat where
  path : String
  size : Nat
  mtime : Nat
  contentHash : String
deriving DecidableEq

/-- One entry of `self.local_cache`: `{hash, size, mtime, path}`. -/
structure CacheEntry where
  hash : String
  size : Nat
  mtime : Nat
  entryPath : String
deriving DecidableEq

/-- The `local_cache` dictionary, keyed by the resolved path string. -/
def Cache : Type := String → Option CacheEntry

/-- The `hash_to_files` grouping, mapping a digest to the paths collected
for it so far. -/
def Groups : Type := String → List String

/-- Python dict assignment `self.local_cache[file_key] = {...}`. -/
def cacheUpdate (c : Cache) (key : String) (e : CacheEntry) : Cache :=
  fun k => if k = key then some e else c k

/-- Python `hash_to_files.setdefault(file_hash, []).append(file_path)`. -/
def groupAdd (g : Groups) (h p : String) : Groups :=
  fun k => if k = h then g h ++ [p] else g k

/-- The digest the loop body uses for a file given the cache it observes:
the cached hash when the cached size and mtime both equal the current
stat, the freshly computed content hash otherwise. -/
def usedHash (cache : Cache) (f : FileStat) : String :=
  match cache f.path with
  | some e => if e.size = f.size ∧ e.mtime = f.mtime then e.hash else f.contentHash
  | none => f.contentHash

/-- Translation of the loop body of `scan_local_directory`
(duplicate_detector.py lines 118-146): consult the cache, recompute and
overwrite on a miss or stale entry, then group the path by the digest
used (skipping empty digests). -/
def processFile (st : Cache × Groups) (f : FileStat) : Cache × Groups :=
  let hashAndCache :=
    match st.1 f.path with
    | some e =>
        if e.size = f.size ∧ e.mtime = f.mtime then
          (e.hash, st.1)
        else
          (f.contentHash, cacheUpdate st.1 f.path ⟨f.contentHash, f.size, f.mtime, f.path⟩)
    | none =>
        (f.contentHash, cacheUpdate st.1 f.path ⟨f.contentHash, f.size, f.mtime, f.path⟩)
  let groups := if hashAndCache.1 ≠ "" then groupAdd st.2 hashAndCache.1 f.path else st.2
  (hashAndCache.2, groups)

/-- Translation of `scan_local_directory`: process every discovered file
in order, starting from the loaded cache and an empty grouping, returning
the updated cache and the `hash_to_files` mapping. -/
def scan_local_directory (cache : Cache) (files : List FileStat) : Cache × Groups :=
  files.foldl processFile (cache, fun _ => [])

theorem processFile_cache_at (c : Cache) (g : Groups) (f : FileStat) :
    ∃ e, (processFile (c, g) f).1 f.path = some e ∧
      e.size = f.size ∧ e.mtime = f.mtime ∧ e.hash = usedHash c f := by
  unfold processFile usedHash
  cases hc : c f.path with
  | none =>
      refine ⟨⟨f.contentHash, f.size, f.mtime, f.path⟩, ?_, rfl, rfl, ?_⟩ <;>
        simp [hc, cacheUpdate]
  | some e =>
      by_cases hm : e.size = f.size ∧ e.mtime = f.mtime
      · refine ⟨e, ?_, hm.1, hm.2, ?_⟩ <;> simp [hc, hm]
      · refine ⟨⟨f.contentHash, f.size, f.mtime, f.path⟩, ?_, rfl, rfl, ?_⟩ <;>
          simp [hc, hm, cacheUpdate]

theorem processFile_cache_other (c : Cache) (g : Groups) (f : FileStat)
    (p : String) (hp : p ≠ f.path) :
    (processFile (c, g) f).1 p = c p := by
  unfold processFile
  cases hc : c f.path with
  | none => simp [hc, cacheUpdate, hp]
  | some e =>
      by_cases hm : e.size = f.size ∧ e.mtime = f.mtime <;>
        simp [hc, hm, cacheUpdate, hp]

theorem groupAdd_superset (g : Groups) (h' p h x : String) (hx : x ∈ g h) :
    x ∈ groupAdd g h' p h := by
  unfold groupAdd
  by_cases hk : h = h'
  · subst hk
    simp [hx]
  · simp [hk, hx]

theorem processFile_groups_eq (c : Cache) (g : Groups) (f : FileStat) :
    (processFile (c, g) f).2 =
      if usedHash c f ≠ "" then groupAdd g (usedHash c f) f.path else g := by
  unfold processFile usedHash
  cases hc : c f.path with
  | none => simp only [hc]
  | some e =>
      by_cases hm : e.size = f.size ∧ e.mtime = f.mtime <;> simp [hc, hm]

theorem processFile_groups_superset (c : Cache) (g : Groups) (f : FileStat)
    (h x : String) (hx : x ∈ g h) :
    x ∈ (processFile (c, g) f).2 h := by
  rw [processFile_groups_eq]
  split_ifs with hne
  · exact groupAdd_superset g (usedHash c f) f.path h x hx
  · exact hx

theorem processFile_groups_self (c : Cache) (g : Groups) (f : FileStat)
    (hne : usedHash c f ≠ "") :
    f.path ∈ (processFile (c, g) f).2 (usedHash c f) := by
  rw [processFile_groups_eq]
  simp [hne, groupAdd]

theorem usedHash_congr (c1 c2 : Cache) (f : FileStat)
    (hc : c1 f.path = c2 f.path) : usedHash c1 f = usedHash c2 f := by
  unfold usedHash
  rw [hc]

theorem foldl_cache_preserved (files : List FileStat) :
    ∀ (st : Cache × Groups) (p : String), (∀ f ∈ files, f.path ≠ p) →
      (files.foldl processFile st).1 p = st.1 p := by
  induction files with
  | nil => intro st p _; rfl
  | cons f0 rest ih =>
      intro st p hp
      rw [List.foldl_cons]
      rw [ih (processFile st f0) p (fun f hf => hp f (List.mem_cons_of_mem f0 hf))]
      have h0 : f0.path ≠ p := hp f0 (List.mem_cons_self f0 rest)
      obtain ⟨c, g⟩ := st
      exact processFile_cache_other c g f0 p (fun he => h0 he.symm)

theorem foldl_groups_superset (files : List FileStat) :
    ∀ (st : Cache × Groups) (h x : String), x ∈ st.2 h →
      x ∈ (files.foldl processFile st).2 h := by
  induction files with
  | nil => intro st h x hx; exact hx
  | cons f0 rest ih =>
      intro st h x hx
      rw [List.foldl_cons]
      refine ih (processFile st f0) h x ?_
      obtain ⟨c, g⟩ := st
      exact processFile_groups_superset c g f0 h x hx

theorem foldl_scan_spec (files : List FileStat) :
    ∀ (c : Cache) (g : Groups) (f : FileStat), f ∈ files →
      (files.map FileStat.path).Nodup →
      (∃ e, (files.foldl processFile (c, g)).1 f.path = some e ∧
        e.size = f.size ∧ e.mtime = f.mtime ∧ e.hash = usedHash c f) ∧
      (usedHash c f ≠ "" →
        f.path ∈ (files.foldl processFile (c, g)).2 (usedHash c f)) := by
  induction files with
  | nil => intro c g f hf _; cases hf
  | cons f0 rest ih =>
      intro c g f hf hnodup
      rw [List.map_cons, List.nodup_cons] at hnodup
      rw [List.foldl_cons]
      rcases List.mem_cons.mp hf with rfl | hmem
      · constructor
        · have hpres : (rest.foldl processFile (processFile (c, g) f)).1 f.path =
              (processFile (c, g) f).1 f.path := by
            refine foldl_cache_preserved rest (processFile (c, g) f) f.path ?_
            intro f1 hf1 he
            exact hnodup.1 (he ▸ List.mem_map_of_mem FileStat.path hf1)
          rw [hpres]
          exact processFile_cache_at c g f
        · intro hne
          exact foldl_groups_superset rest (processFile (c, g) f) (usedHash c f) f.path
            (processFile_groups_self c g f hne)
      · have hne0 : f.path ≠ f0.path := by
          intro he
          exact hnodup.1 (he ▸ List.mem_map_of_mem FileStat.path hmem)
        have hc1 : (processFile (c, g) f0).1 f.path = c f.path :=
          processFile_cache_other c g f0 f.path hne0
        have ihres := ih (processFile (c, g) f0).1 (processFile (c, g) f0).2 f hmem hnodup.2
        rw [usedHash_congr (processFile (c, g) f0).1 c f hc1] at ihres
        exact ihres

/-- C8: during `scan_local_directory`, a cached digest is used only when
the cached size and mtime both equal the file's current stat; on a miss
or mismatch the digest is recomputed; grouping uses exactly that digest;
and after the scan every scanned file's cache entry records its current
size, mtime and the digest used — so the freshness invariant is
preserved by every scan. -/
theorem C8_scan_cache_freshness (cache : Cache) (files : List FileStat)
    (hnodup : (files.map FileStat.path).Nodup)
    (f : FileStat) (hf : f ∈ files) :
    (∃ e, (scan_local_directory cache files).1 f.path = some e ∧
      e.size = f.size ∧ e.mtime = f.mtime ∧ e.hash = usedHash cache f) ∧
    (usedHash cache f ≠ "" →
      f.path ∈ (scan_local_directory cache files).2 (usedHash cache f)) ∧
    (∀ e, cache f.path = some e → e.size = f.size → e.mtime = f.mtime →
      usedHash cache f = e.hash) ∧
    ((∀ e, cache f.path = some e → ¬(e.size = f.size ∧ e.mtime = f.mtime)) →
      usedHash cache f = f.contentHash) := by
  refine ⟨?_, ?_, ?_, ?_⟩
  · exact (foldl_scan_spec files cache (fun _ => []) f hf hnodup).1
  · exact (foldl_scan_spec files cache (fun _ => []) f hf hnodup).2
  · intro e he hs hm
    unfold usedHash
    simp [he, hs, hm]
  · intro hstale
    unfold usedHash
    cases he : cache f.path with
    | none => rfl
    | some e => simp [hstale e he]

/-- C8 witness: a stale cache entry (size 5, mtime 10) for a file whose
current stat is (size 7, mtime 11) — the recomputed digest is the one
used to group the path. -/
theorem C8_scan_cache_freshness_witness :
    "/a.csv" ∈ (scan_local_directory
        (fun k => if k = "/a.csv" then some ⟨"oldhash", 5, 10, "/a.csv"⟩ else none)
        [⟨"/a.csv", 7, 11, "newhash"⟩]).2
      (usedHash (fun k => if k = "/a.csv" then some ⟨"oldhash", 5, 10, "/a.csv"⟩ else none)
        ⟨"/a.csv", 7, 11, "newhash"⟩) :=
  (C8_scan_cache_freshness
      (fun k => if k = "/a.csv" then some ⟨"oldhash", 5, 10, "/a.csv"⟩ else none)
      [⟨"/a.csv", 7, 11, "newhash"⟩] (by decide)
      ⟨"/a.csv", 7, 11, "newhash"⟩ (by decide)).2.1 (by decide)
